import Mathlib

/- Verification of the simple file system in src/library/fs.c.

   Modelling choices (shared by every definition below):
   * A disk block is a list of 1024 natural numbers, each standing for one
     little-endian 32-bit word of the 4096-byte block.  The C code accesses a
     block through a union (raw bytes `Data`, inode records `Inodes`, pointer
     words `Pointers`); word granularity is the common refinement fixed by the
     byte-exact layout of spec section 6:
       - superblock fields  = words 0..3 of block 0,
       - inode record j     = words 8*j .. 8*j+7 of its inode-table block
         (Valid, Size, Direct[0..4], Indirect),
       - pointer k of an indirect block = word k,
       - byte j of a block = byte j%4 of word j/4 (little endian).
   * The block device is a list of blocks plus its mount counter; readDisk and
     writeDisk are the device contract of spec section 4.2 (out-of-range access
     is fatal at device level and never exercised by any theorem below).
   * size_t values are Nat; the single place where C size_t subtraction can
     underflow (the length clamp of writeInode) is modelled with an explicit
     mod 2^64.
   * Functions returning -1 (ssize_t/size_t sentinels) or false are modelled
     with Option / Bool.
   * The layout constants live in the header sfs/fs.h, which is not among the
     sources; their canonical values are taken from spec section 3. -/

set_option maxRecDepth 1000000

namespace SFS

/-- Modelled from the spec: BLOCK_SIZE from sfs/fs.h (absent), canonically 4096. -/
def BLOCK_SIZE : Nat := 4096

/-- Modelled from the spec: POINTERS_PER_INODE from sfs/fs.h (absent), canonically 5. -/
def POINTERS_PER_INODE : Nat := 5

/-- Modelled from the spec: POINTERS_PER_BLOCK from sfs/fs.h (absent), canonically 1024. -/
def POINTERS_PER_BLOCK : Nat := 1024

/-- Modelled from the spec: INODES_PER_BLOCK from sfs/fs.h (absent), canonically 128. -/
def INODES_PER_BLOCK : Nat := 128

/-- Modelled from the spec: MAGIC_NUMBER from sfs/fs.h (absent), canonically 0xf0f03410. -/
def MAGIC_NUMBER : Nat := 0xf0f03410

/-- Modulus of C size_t arithmetic. -/
def SIZE_T_MOD : Nat := 2 ^ 64

/-- Content of one disk block: 1024 little-endian 32-bit words. -/
abbrev BlockData := List Nat

/-- Block of all zero bytes. -/
def zeroBlock : BlockData := List.replicate POINTERS_PER_BLOCK 0

/-- Block device: block contents plus the mount counter (disk.c emulator interface,
spec section 4.2). The device block count disk->Blocks is blocks.length. -/
structure Disk where
  blocks : List BlockData
  mounts : Nat
deriving DecidableEq

/-- In-memory inode record (struct Inode of sfs/fs.h, layout per spec section 6). -/
structure Inode where
  Valid : Nat
  Size : Nat
  Direct : List Nat
  Indirect : Nat
deriving DecidableEq

/-- Mounted-filesystem state: the module globals of fs.c
(Blocks, InodeBlocks, Inodes, mounted_disk, free_block_bitmap). -/
structure FS where
  Blocks : Nat
  InodeBlocks : Nat
  Inodes : Nat
  mounted_disk : Disk
  free_block_bitmap : List Bool
deriving DecidableEq

/-- Word i of a block buffer. -/
def getWord (b : BlockData) (i : Nat) : Nat := b.getD i 0

/-- Byte j of a block buffer (little-endian packing of the words). -/
def getByte (b : BlockData) (j : Nat) : Nat := getWord b (j / 4) / 256 ^ (j % 4) % 256

/-- disk->readDisk(disk, i, buf): reliable full-block read (spec section 4.2). -/
def readDisk (d : Disk) (i : Nat) : BlockData := d.blocks.getD i zeroBlock

/-- disk->writeDisk(disk, i, buf): reliable full-block write (spec section 4.2). -/
def writeDisk (d : Disk) (i : Nat) (b : BlockData) : Disk :=
  { d with blocks := d.blocks.set i b }

/-- Inode record j of an inode-table block: block.Inodes[j]. -/
def decodeInode (b : BlockData) (j : Nat) : Inode :=
  { Valid := getWord b (8 * j)
    Size := getWord b (8 * j + 1)
    Direct := [getWord b (8 * j + 2), getWord b (8 * j + 3), getWord b (8 * j + 4),
               getWord b (8 * j + 5), getWord b (8 * j + 6)]
    Indirect := getWord b (8 * j + 7) }

/-- memcpy of a 32-byte inode record into slot j of an inode-table block buffer. -/
def encodeInodeAt (b : BlockData) (j : Nat) (ino : Inode) : BlockData :=
  (((((((b.set (8 * j) ino.Valid).set
        (8 * j + 1) ino.Size).set
        (8 * j + 2) (ino.Direct.getD 0 0)).set
        (8 * j + 3) (ino.Direct.getD 1 0)).set
        (8 * j + 4) (ino.Direct.getD 2 0)).set
        (8 * j + 5) (ino.Direct.getD 3 0)).set
        (8 * j + 6) (ino.Direct.getD 4 0)).set
        (8 * j + 7) ino.Indirect

/-- load_inode (fs.c line 779): bounds check, then read the containing block
(inumber / INODES_PER_BLOCK) + 1 and copy out record inumber % INODES_PER_BLOCK. -/
def load_inode (fs : FS) (inumber : Nat) : Option Inode :=
  if inumber ≥ fs.Inodes then none
  else some (decodeInode (readDisk fs.mounted_disk (inumber / INODES_PER_BLOCK + 1))
               (inumber % INODES_PER_BLOCK))

/-- save_inode (fs.c line 757): bounds check, then read-modify-write of the
block inumber / INODES_PER_BLOCK + 1 at slot inumber % INODES_PER_BLOCK. -/
def save_inode (fs : FS) (inumber : Nat) (ino : Inode) : Bool × FS :=
  if inumber ≥ fs.Inodes then (false, fs)
  else
    let block := inumber / INODES_PER_BLOCK + 1
    let blockData := readDisk fs.mounted_disk block
    let blockData := encodeInodeAt blockData (inumber % INODES_PER_BLOCK) ino
    (true, { fs with mounted_disk := writeDisk fs.mounted_disk block blockData })

/-- Scan of the free-block loop in allocate_free_block (fs.c line 739):
first index i with free_block_bitmap[i] true, scanning i upward while
i < Blocks; fuel is the number of indices left to inspect. -/
def scanFree (bm : List Bool) : Nat → Nat → Option Nat
  | 0, _ => none
  | fuel + 1, i => if bm.getD i false then some i else scanFree bm fuel (i + 1)

/-- allocate_free_block (fs.c line 735): first-fit scan from block 0; on a hit
the bitmap entry is flipped to false and the block is zeroed on disk; -1
(here none) when no block is free, with no state change. -/
def allocate_free_block (fs : FS) : Option Nat × FS :=
  match scanFree fs.free_block_bitmap fs.Blocks 0 with
  | none => (none, fs)
  | some b =>
      (some b, { fs with
                   free_block_bitmap := fs.free_block_bitmap.set b false
                   mounted_disk := writeDisk fs.mounted_disk b zeroBlock })

/-- Mark every non-zero pointer of a pointer list as used in the bitmap
(the Direct[k] and indirect Pointers[k] loops of mount, fs.c lines 179-192;
blocks carry exactly POINTERS_PER_BLOCK words, direct lists exactly
POINTERS_PER_INODE entries, so folding over the list is the C index loop). -/
def markUsed (bm : List Bool) (ws : List Nat) : List Bool :=
  ws.foldl (fun bm p => if p ≠ 0 then bm.set p false else bm) bm

/-- Free-block-bitmap reconstruction done by mount (fs.c lines 154-195): all
blocks free; superblock and the InodeBlocks inode-table blocks used; for every
valid inode every non-zero direct pointer, the indirect block and every
non-zero pointer inside it used. -/
def reconstructBitmap (blocks inodeBlocks : Nat) (d : Disk) : List Bool :=
  let bm := (List.replicate blocks true).set 0 false
  let bm := (List.range inodeBlocks).foldl (fun bm i => bm.set (i + 1) false) bm
  (List.range inodeBlocks).foldl (fun bm i =>
    let blk := readDisk d (i + 1)
    (List.range INODES_PER_BLOCK).foldl (fun bm j =>
      let ino := decodeInode blk j
      if ino.Valid = 0 then bm
      else
        let bm := markUsed bm ino.Direct
        if ino.Indirect = 0 then bm
        else markUsed (bm.set ino.Indirect false) (readDisk d ino.Indirect)) bm) bm

/-- Modelled from the spec: the CEILING macro of fs.c computes
ceil(Blocks/10) through floating-point arithmetic (double 0.1*Blocks in
mount, float Blocks/10 in format); fs.h and the float semantics are outside
the shallow embedding, so the exact ceiling of spec sections 4.5 is used.
The two agree at every block count appearing in a theorem below. -/
def ceil10 (n : Nat) : Nat := (n + 9) / 10

/-- mount (fs.c line 125): refuse if the disk is already mounted; read the
superblock and check Inodes == InodeBlocks*INODES_PER_BLOCK, the magic number,
and InodeBlocks == ceil(0.1*Blocks); the source's third check Blocks < 0 is
vacuously false on an unsigned field and drops out.  On success: bump the disk
mount counter, copy the metadata and reconstruct the bitmap. -/
def mount (d : Disk) : Option FS :=
  if 0 < d.mounts then none
  else
    let blk := readDisk d 0
    let sMagic := getWord blk 0
    let sBlocks := getWord blk 1
    let sInodeBlocks := getWord blk 2
    let sInodes := getWord blk 3
    if sInodes ≠ sInodeBlocks * INODES_PER_BLOCK ∨ sMagic ≠ MAGIC_NUMBER ∨
       sInodeBlocks ≠ ceil10 sBlocks then none
    else
      some { Blocks := sBlocks
             InodeBlocks := sInodeBlocks
             Inodes := sInodes
             mounted_disk := { d with mounts := d.mounts + 1 }
             free_block_bitmap := reconstructBitmap sBlocks sInodeBlocks d }

/-- format (fs.c line 93): refuse if mounted; write a fresh superblock to
block 0 and zero every block 1 .. Blocks-1. -/
def format (d : Disk) : Option Disk :=
  if 0 < d.mounts then none
  else
    let inodeBlocks := ceil10 d.blocks.length
    let super := (((zeroBlock.set 0 MAGIC_NUMBER).set 1 d.blocks.length).set
                    2 inodeBlocks).set 3 (inodeBlocks * INODES_PER_BLOCK)
    let d1 := writeDisk d 0 super
    some ((List.range (d.blocks.length - 1)).foldl
            (fun dd i => writeDisk dd (i + 1) zeroBlock) d1)

/-- Scan of one inode-table block by create (fs.c lines 210-212): the first
slot j whose stored Valid word is 0. -/
def createFindSlot (blk : BlockData) : Option Nat :=
  (List.range INODES_PER_BLOCK).find? (fun j => getWord blk (8 * j) == 0)

/-- Outer block scan of create over inode-table blocks i = 1..InodeBlocks;
fuel counts the blocks left to visit. -/
def createGo (fs : FS) : Nat → Nat → Option Nat × FS
  | 0, _ => (none, fs)
  | fuel + 1, i =>
    let blk := readDisk fs.mounted_disk i
    match createFindSlot blk with
    | some j =>
        let newInode : Inode :=
          { Valid := 1, Size := 0, Direct := List.replicate POINTERS_PER_INODE 0,
            Indirect := 0 }
        let blk := encodeInodeAt blk j newInode
        (some ((i - 1) * INODES_PER_BLOCK + j),
         { fs with mounted_disk := writeDisk fs.mounted_disk i blk })
    | none => createGo fs fuel (i + 1)

/-- create (fs.c line 203): first invalid slot in inode-table order becomes
{Valid 1, Size 0, no pointers}; -1 (none) when the table is full. -/
def create (fs : FS) : Option Nat × FS :=
  createGo fs fs.InodeBlocks 1

/-- Release every non-zero entry of a pointer list to the bitmap
(fs.c lines 252-257 and 266-271; an out-of-range index is undefined behaviour
in C and leaves the modelled bitmap unchanged via List.set). -/
def releaseAll (bm : List Bool) (ws : List Nat) : List Bool :=
  ws.foldl (fun bm p => if p ≠ 0 then bm.set p true else bm) bm

/-- Clear every non-zero entry of a pointer list (the pointer-zeroing half of
the same loops). -/
def zeroNonzero (ws : List Nat) : List Nat :=
  ws.map (fun p => if p ≠ 0 then 0 else p)

/-- removeInode (fs.c line 239).  Note the source order in the indirect branch
(lines 260-272): the bitmap entry of Indirect is released and inode.Indirect
is set to 0 BEFORE the indirect block is read, so the subsequent readDisk and
writeDisk use block index inode.Indirect == 0, i.e. the superblock. -/
def removeInode (fs : FS) (inumber : Nat) : Bool × FS :=
  match load_inode fs inumber with
  | none => (false, fs)
  | some ino =>
    if ino.Valid = 0 then (false, fs)
    else
      let bm := releaseAll fs.free_block_bitmap ino.Direct
      let ino := { ino with Direct := zeroNonzero ino.Direct }
      let (bm, ino, disk) :=
        if ino.Indirect ≠ 0 then
          let bm := bm.set ino.Indirect true
          let ino := { ino with Indirect := 0 }
          let indirectBlock := readDisk fs.mounted_disk ino.Indirect
          let bm := releaseAll bm indirectBlock
          let indirectBlock := zeroNonzero indirectBlock
          (bm, ino, writeDisk fs.mounted_disk ino.Indirect indirectBlock)
        else (bm, ino, fs.mounted_disk)
      let ino := { ino with Valid := 0, Size := 0 }
      let fs := { fs with free_block_bitmap := bm, mounted_disk := disk }
      let (_, fs) := save_inode fs inumber ino
      (true, fs)

/-- stat (fs.c line 287): -1 (none) for an out-of-range inumber or an invalid
record, otherwise the logical size. -/
def stat (fs : FS) (inumber : Nat) : Option Nat :=
  match load_inode fs inumber with
  | none => none
  | some ino => if ino.Valid = 0 then none else some ino.Size

/-- Byte slice [start, stop) of a block buffer. -/
def readSlice (b : BlockData) (start stop : Nat) : List Nat :=
  (List.range (stop - start)).map (fun k => getByte b (start + k))

/-- Block loop of readInode (fs.c lines 337-361): iterate i from startBlock
while i < endBlock+1 and bytes_read < length, copying bytes [start, stop)
of each referenced block; returns (bytes_read, collected bytes). -/
def readGo (fs : FS) (ino : Inode) (indirect : BlockData)
    (length offset startBlock endBlock : Nat) :
    Nat → Nat → Nat → List Nat → Nat × List Nat
  | 0, _, bytes_read, acc => (bytes_read, acc)
  | fuel + 1, i, bytes_read, acc =>
    if i < endBlock + 1 ∧ bytes_read < length then
      let blk :=
        if i < POINTERS_PER_INODE then readDisk fs.mounted_disk (ino.Direct.getD i 0)
        else readDisk fs.mounted_disk (indirect.getD (i - POINTERS_PER_INODE) 0)
      let start := if i = startBlock then offset % BLOCK_SIZE else 0
      let stop :=
        if i = (offset + length) / BLOCK_SIZE then (offset + length) % BLOCK_SIZE
        else BLOCK_SIZE
      readGo fs ino indirect length offset startBlock endBlock fuel (i + 1)
        (bytes_read + (stop - start)) (acc ++ readSlice blk start stop)
    else (bytes_read, acc)

/-- readInode (fs.c line 306): -1 (none) when load_inode fails or offset >
Size (the source has no Valid check); length clamped to Size - offset; the
indirect block is read once, only when endBlock >= POINTERS_PER_INODE.
Returns the byte count together with the bytes copied to the caller buffer. -/
def readInode (fs : FS) (inumber : Nat) (length offset : Nat) :
    Option (Nat × List Nat) :=
  match load_inode fs inumber with
  | none => none
  | some ino =>
    if offset > ino.Size then none
    else
      let length := if length > ino.Size - offset then ino.Size - offset else length
      let startBlock := offset / BLOCK_SIZE
      let endBlock := (offset + length) / BLOCK_SIZE
      let indirect :=
        if endBlock ≥ POINTERS_PER_INODE then readDisk fs.mounted_disk ino.Indirect
        else zeroBlock
      some (readGo fs ino indirect length offset startBlock endBlock
              (endBlock + 1) startBlock 0 [])

/-- New value of word wIdx after the byte-splice loop wrote user bytes to
byte positions [start, stop) of the block, user data being consumed from
index dIdx on (bytes past the supplied list read as 0, the C behaviour
being undefined there; char values are bytes, hence the mod 256). -/
def spliceWord (w wIdx start stop dIdx : Nat) (data : List Nat) : Nat :=
  let byte := fun b =>
    let j := 4 * wIdx + b
    if start ≤ j ∧ j < stop then data.getD (dIdx + (j - start)) 0 % 256
    else w / 256 ^ b % 256
  byte 0 + 256 * byte 1 + 256 ^ 2 * byte 2 + 256 ^ 3 * byte 3

/-- Word-wise traversal realising the byte copy loop
for j in [start, stop): block.Data[j] = data[dIdx + (j - start)]. -/
def spliceGo (start stop dIdx : Nat) (data : List Nat) : Nat → BlockData → BlockData
  | _, [] => []
  | wIdx, w :: ws =>
      (if 4 * wIdx + 4 ≤ start ∨ stop ≤ 4 * wIdx then w
       else spliceWord w wIdx start stop dIdx data) ::
      spliceGo start stop dIdx data (wIdx + 1) ws

/-- Byte splice of user data into a block buffer. -/
def spliceBlock (b : BlockData) (start stop dIdx : Nat) (data : List Nat) :
    BlockData :=
  spliceGo start stop dIdx data 0 b

/-- Length clamp of writeInode (fs.c lines 505-509): size_t arithmetic, so a
clamp with offset > maxSize wraps modulo 2^64. -/
def writeEffLength (maxSize offset length : Nat) : Nat :=
  if offset + length > maxSize then (maxSize + SIZE_T_MOD - offset) % SIZE_T_MOD
  else length

/-- Epilogue shared by every return path of writeInode (fs.c lines 525-535,
571-581, 595-604 and 629-639): grow Size to offset + length when
offset + bytes_written exceeds it, persist the inode, return -1 only if
save_inode fails. -/
def finalizeWrite (fs : FS) (inumber : Nat) (ino : Inode)
    (offset length bytes_written : Nat) : Option Nat × FS :=
  let ino := if offset + bytes_written > ino.Size then { ino with Size := offset + length }
             else ino
  match save_inode fs inumber ino with
  | (true, fs) => (some bytes_written, fs)
  | (false, fs) => (none, fs)

/-- Direct-block loop of writeInode (fs.c lines 519-562): i from startBlock
while i < POINTERS_PER_INODE and bytes_written < length; allocate Direct[i]
if 0 (finalizing early when the disk is full); the copied range is
[offset % BLOCK_SIZE, BLOCK_SIZE) on the first block, else
[0, (offset+length) % BLOCK_SIZE) when i == endBlock, else the whole block. -/
def writeDirectGo (inumber : Nat) (data : List Nat)
    (length offset startBlock endBlock : Nat) :
    Nat → Nat → FS × Inode × Nat → Sum (Option Nat × FS) (FS × Inode × Nat)
  | 0, _, s => Sum.inr s
  | fuel + 1, i, (fs, ino, bw) =>
    if i < POINTERS_PER_INODE ∧ bw < length then
      let step : Sum (Option Nat × FS) (FS × Inode) :=
        if ino.Direct.getD i 0 = 0 then
          match allocate_free_block fs with
          | (none, fs1) => Sum.inl (finalizeWrite fs1 inumber ino offset length bw)
          | (some b, fs1) => Sum.inr (fs1, { ino with Direct := ino.Direct.set i b })
        else Sum.inr (fs, ino)
      match step with
      | Sum.inl r => Sum.inl r
      | Sum.inr (fs, ino) =>
          let blkIdx := ino.Direct.getD i 0
          let blk := readDisk fs.mounted_disk blkIdx
          let start := if i = startBlock then offset % BLOCK_SIZE else 0
          let stop :=
            if i = startBlock then BLOCK_SIZE
            else if i = endBlock then (offset + length) % BLOCK_SIZE
            else BLOCK_SIZE
          let blk := spliceBlock blk start stop bw data
          let fs := { fs with mounted_disk := writeDisk fs.mounted_disk blkIdx blk }
          writeDirectGo inumber data length offset startBlock endBlock fuel (i + 1)
            (fs, ino, bw + (stop - start))
    else Sum.inr (fs, ino, bw)

/-- Indirect-pointer loop of writeInode (fs.c lines 588-624): i from 0 while
i < POINTERS_PER_BLOCK and bytes_written < length; allocate Pointers[i] if 0
(finalizing early, WITHOUT persisting the indirect buffer, when the disk is
full); the copied range stops at (offset+length) % BLOCK_SIZE when
i == endBlock - POINTERS_PER_INODE. -/
def writeIndirectGo (inumber : Nat) (data : List Nat)
    (length offset endBlock : Nat) (ino : Inode) :
    Nat → Nat → FS × BlockData × Nat → Sum (Option Nat × FS) (FS × BlockData × Nat)
  | 0, _, s => Sum.inr s
  | fuel + 1, i, (fs, ib, bw) =>
    if i < POINTERS_PER_BLOCK ∧ bw < length then
      let step : Sum (Option Nat × FS) (FS × BlockData) :=
        if ib.getD i 0 = 0 then
          match allocate_free_block fs with
          | (none, fs1) => Sum.inl (finalizeWrite fs1 inumber ino offset length bw)
          | (some b, fs1) => Sum.inr (fs1, ib.set i b)
        else Sum.inr (fs, ib)
      match step with
      | Sum.inl r => Sum.inl r
      | Sum.inr (fs, ib) =>
          let blkIdx := ib.getD i 0
          let blk := readDisk fs.mounted_disk blkIdx
          let stop :=
            if i = endBlock - POINTERS_PER_INODE then (offset + length) % BLOCK_SIZE
            else BLOCK_SIZE
          let blk := spliceBlock blk 0 stop bw data
          let fs := { fs with mounted_disk := writeDisk fs.mounted_disk blkIdx blk }
          writeIndirectGo inumber data length offset endBlock ino fuel (i + 1)
            (fs, ib, bw + stop)
    else Sum.inr (fs, ib, bw)

/-- writeInode (fs.c line 374, the active variant): -1 (none) when load_inode
fails or offset > Size (the Valid check of the source is commented out);
length clamped against (Blocks - InodeBlocks - 1) * BLOCK_SIZE; direct loop,
then, when endBlock >= POINTERS_PER_INODE, lazy allocation of the indirect
block and the indirect loop; every exit persists the inode via the shared
epilogue. -/
def writeInode (fs : FS) (inumber : Nat) (data : List Nat)
    (length offset : Nat) : Option Nat × FS :=
  match load_inode fs inumber with
  | none => (none, fs)
  | some ino =>
    if offset > ino.Size then (none, fs)
    else
      let maxSize := (fs.Blocks - fs.InodeBlocks - 1) * BLOCK_SIZE
      let length := writeEffLength maxSize offset length
      let startBlock := offset / BLOCK_SIZE
      let endBlock := (offset + length) / BLOCK_SIZE
      match writeDirectGo inumber data length offset startBlock endBlock
              POINTERS_PER_INODE startBlock (fs, ino, 0) with
      | Sum.inl r => r
      | Sum.inr (fs, ino, bw) =>
        if endBlock ≥ POINTERS_PER_INODE then
          let step : Sum (Option Nat × FS) (FS × Inode) :=
            if ino.Indirect = 0 then
              match allocate_free_block fs with
              | (none, fs1) => Sum.inl (finalizeWrite fs1 inumber ino offset length bw)
              | (some b, fs1) => Sum.inr (fs1, { ino with Indirect := b })
            else Sum.inr (fs, ino)
          match step with
          | Sum.inl r => r
          | Sum.inr (fs, ino) =>
            let ib := readDisk fs.mounted_disk ino.Indirect
            match writeIndirectGo inumber data length offset endBlock ino
                    POINTERS_PER_BLOCK 0 (fs, ib, bw) with
            | Sum.inl r => r
            | Sum.inr (fs, ib, bw) =>
              let fs := { fs with
                            mounted_disk := writeDisk fs.mounted_disk ino.Indirect ib }
              finalizeWrite fs inumber ino offset length bw
        else finalizeWrite fs inumber ino offset length bw

/- Concrete states used by the counterexample and failing-input theorems.
Every state is either produced by the public operations themselves (the
disk20 lineage below: format, mount, create, write, remove) or is the mount
of an explicitly written well-formed image. -/

/-- Fresh unformatted 20-block disk image (the canonical test geometry of
spec section 8: Blocks 20, InodeBlocks 2, Inodes 256). -/
def disk20 : Disk := ⟨List.replicate 20 zeroBlock, 0⟩

/-- The 20-block disk after format. -/
def diskFmt : Disk := (format disk20).getD disk20

/-- Fallback state for Option.getD; never the value actually produced in the
lineages below. -/
def dummyFS : FS := ⟨0, 0, 0, disk20, []⟩

/-- The formatted 20-block disk, mounted. -/
def fsMounted : FS := (mount diskFmt).getD dummyFS

/-- fsMounted after create (which returns inumber 0). -/
def fsCreated : FS := (create fsMounted).2

/-- fsCreated after writing 24576 zero bytes at offset 0 to inode 0: the
write allocates direct blocks 3..7, indirect block 8 and indirect data
block 9. -/
def fsWritten : FS := (writeInode fsCreated 0 [] 24576 0).2

/-- fsWritten after removeInode 0. -/
def fsRemoved : FS := (removeInode fsWritten 0).2

/-- Superblock image of a 20-block filesystem. -/
def superBlk20 : BlockData :=
  (((zeroBlock.set 0 MAGIC_NUMBER).set 1 20).set 2 2).set 3 (2 * INODES_PER_BLOCK)

/-- Inode-table block whose slot 0 holds a valid inode of size 4090 stored in
data block 3. -/
def inodeBlk4 : BlockData := encodeInodeAt zeroBlock 0 ⟨1, 4090, [3, 0, 0, 0, 0], 0⟩

/-- Well-formed 20-block image holding that single file. -/
def disk4img : Disk :=
  ⟨((List.replicate 20 zeroBlock).set 0 superBlk20).set 1 inodeBlk4, 0⟩

/-- The mount of disk4img. -/
def fs4 : FS := (mount disk4img).getD dummyFS

/-- Unmounted 30-block image whose superblock claims Blocks = 20. -/
def disk30 : Disk := ⟨(List.replicate 30 zeroBlock).set 0 superBlk20, 0⟩

/-- Superblock image of a 20000-block filesystem (InodeBlocks 2000,
Inodes 256000). -/
def superBlkBig : BlockData :=
  (((zeroBlock.set 0 MAGIC_NUMBER).set 1 20000).set 2 2000).set
    3 (2000 * INODES_PER_BLOCK)

/-- Indirect block of a maximum-size file: 1024 data pointers 2007..3030. -/
def indBlkBig : BlockData := (List.range POINTERS_PER_BLOCK).map (fun k => 2007 + k)

/-- Inode-table block whose slot 0 holds a valid inode of the maximum file
size (POINTERS_PER_INODE + POINTERS_PER_BLOCK) * BLOCK_SIZE = 4214784,
with direct blocks 2001..2005 and indirect block 2006. -/
def inodeBlkBig : BlockData :=
  encodeInodeAt zeroBlock 0 ⟨1, 4214784, [2001, 2002, 2003, 2004, 2005], 2006⟩

/-- Mounted 20000-block filesystem holding that maximum-size file
(data region 2001..19999; blocks up to 3030 in use). -/
def fsBig : FS :=
  ⟨20000, 2000, 2000 * INODES_PER_BLOCK,
   ⟨(((List.replicate 20000 zeroBlock).set 0 superBlkBig).set 1 inodeBlkBig).set
      2006 indBlkBig, 1⟩,
   (List.range 20000).map (fun i => 3030 < i)⟩

/-- Bitmap/disk state exercising the found-a-free-block case of
allocate_free_block: 3 blocks, the first free one at index 2. -/
def fsAllocW : FS := ⟨3, 1, 128, ⟨List.replicate 3 zeroBlock, 1⟩, [false, false, true]⟩

/-- Arbitrary well-formed inode record used to exercise save_inode. -/
def inodeW : Inode := ⟨1, 7, [10, 11, 0, 0, 0], 12⟩

/-- Reading back the slot an element was stored at. -/
theorem getD_set_self {α : Type} {l : List α} {i : Nat} {v d : α} (h : i < l.length) :
    (l.set i v).getD i d = v := by
  rw [List.getD_eq_getElem?_getD, List.getElem?_set_eq_of_lt _ h]; rfl

/-- Reading any other slot is unaffected by a store. -/
theorem getD_set_ne {α : Type} {l : List α} {i j : Nat} {v d : α} (h : i ≠ j) :
    (l.set i v).getD j d = l.getD j d := by
  rw [List.getD_eq_getElem?_getD, List.getElem?_set_ne h, ← List.getD_eq_getElem?_getD]

/-- Decoding the slot an inode record was just encoded into yields the record
back, provided the slot lies inside the block and the record carries its five
direct pointers. -/
theorem decode_encode_self (b : BlockData) (j : Nat) (ino : Inode)
    (hb : 8 * j + 7 < b.length) (hd : ino.Direct.length = POINTERS_PER_INODE) :
    decodeInode (encodeInodeAt b j ino) j = ino := by
  obtain ⟨v, s, dir, ind⟩ := ino
  simp only [POINTERS_PER_INODE] at hd
  rcases dir with _ | ⟨d0, _ | ⟨d1, _ | ⟨d2, _ | ⟨d3, _ | ⟨d4, _ | ⟨d5, rest⟩⟩⟩⟩⟩⟩ <;>
    simp only [List.length] at hd <;> try omega
  simp (disch := (try simp only [List.length_set]); omega) only
    [decodeInode, encodeInodeAt, getWord, getD_set_ne, getD_set_self,
     List.getD_cons_zero, List.getD_cons_succ]

/-- Encoding a record into slot j leaves the decoding of every other slot of
the block unchanged. -/
theorem decode_encode_other (b : BlockData) (j : Nat) (ino : Inode) (m : Nat)
    (hne : m ≠ j) :
    decodeInode (encodeInodeAt b j ino) m = decodeInode b m := by
  simp (disch := omega) only [decodeInode, encodeInodeAt, getWord, getD_set_ne]

/-- Writing one block leaves every other block as read before. -/
theorem readDisk_writeDisk_other (d : Disk) (i : Nat) (b : BlockData) (m : Nat)
    (h : m ≠ i) : readDisk (writeDisk d i b) m = readDisk d m := by
  simp only [readDisk, writeDisk]
  exact getD_set_ne (fun e => h e.symm)

/-- Reading back a just-written in-range block. -/
theorem readDisk_writeDisk_self (d : Disk) (i : Nat) (b : BlockData)
    (h : i < d.blocks.length) : readDisk (writeDisk d i b) i = b := by
  simp only [readDisk, writeDisk]
  exact getD_set_self h

/-- Soundness of the first-fit scan: a hit is a true bitmap entry at or
beyond the scan start and every entry between the start and the hit is
false. -/
theorem scanFree_some (bm : List Bool) :
    ∀ fuel i b, scanFree bm fuel i = some b →
      bm.getD b false = true ∧ i ≤ b ∧
      ∀ j, i ≤ j → j < b → bm.getD j false = false := by
  intro fuel
  induction fuel with
  | zero => intro i b h; simp [scanFree] at h
  | succ m ih =>
    intro i b h
    by_cases hb : bm.getD i false = true
    · simp only [scanFree, if_pos hb, Option.some.injEq] at h
      subst h
      exact ⟨hb, le_refl _, fun j h1 h2 => by omega⟩
    · simp only [scanFree, if_neg hb] at h
      obtain ⟨g1, g2, g3⟩ := ih (i + 1) b h
      refine ⟨g1, by omega, fun j hj1 hj2 => ?_⟩
      rcases Nat.eq_or_lt_of_le hj1 with rfl | hlt
      · exact Bool.not_eq_true _ ▸ Bool.of_not_eq_true hb
      · exact g3 j (by omega) hj2

/-- Completeness of the first-fit scan: a miss means every inspected entry is
false. -/
theorem scanFree_none (bm : List Bool) :
    ∀ fuel i, scanFree bm fuel i = none →
      ∀ j, i ≤ j → j < i + fuel → bm.getD j false = false := by
  intro fuel
  induction fuel with
  | zero => intro i _ j _ _; omega
  | succ m ih =>
    intro i h j hj1 hj2
    by_cases hb : bm.getD i false = true
    · simp only [scanFree, if_pos hb] at h
      exact absurd h (by simp)
    · simp only [scanFree, if_neg hb] at h
      rcases Nat.eq_or_lt_of_le hj1 with rfl | hlt
      · exact Bool.of_not_eq_true hb
      · exact ih (i + 1) h j (by omega) (by omega)

/-- Claim C1.  The claim states that remove reads the indirect block before
releasing it and releases exactly the data blocks its non-zero pointers name.
In the reachable state fsWritten (format, mount, create, then one 24576-byte
write) inode 0 holds Indirect = 8 and the indirect block 8 names data block 9;
removeInode 0 nevertheless returns success while leaving block 9 allocated
(bitmap entry still false) and instead frees inode-table block 2, an index it
found by reading block 0 after clearing Indirect.  The claim fails on the
code; the spec's ordering note (read before release) is the documented
intent, so this is a code bug. -/
theorem claim1_remove_indirect_readback :
    load_inode fsWritten 0 = some ⟨1, 24576, [3, 4, 5, 6, 7], 8⟩ ∧
    getWord (readDisk fsWritten.mounted_disk 8) 0 = 9 ∧
    fsWritten.free_block_bitmap.getD 9 false = false ∧
    (removeInode fsWritten 0).1 = true ∧
    fsRemoved.free_block_bitmap.getD 9 false = false ∧
    fsRemoved.free_block_bitmap.getD 2 false = true := by
  decide

/-- Claim C2.  The claim states that after format no operation ever rewrites
block 0.  In the lineage of fsWritten, removeInode 0 write-backs its
(mis-read) indirect buffer at block index inode.Indirect == 0 (fs.c line 272)
and thereby zeroes the magic number that format had stored in block 0. -/
theorem claim2_superblock_rewritten :
    getWord (readDisk diskFmt 0) 0 = MAGIC_NUMBER ∧
    getWord (readDisk fsRemoved.mounted_disk 0) 0 = 0 ∧
    MAGIC_NUMBER ≠ 0 := by
  decide

/-- Claim C3.  The claim states that after every operation the in-memory
bitmap equals the mount-time reconstruction recomputed on the current disk.
After removeInode 0 in the fsWritten lineage, the in-memory bitmap marks
inode-table block 2 free (it was released through the mis-read indirect
buffer) while the reconstruction on the resulting disk marks block 2 used. -/
theorem claim3_bitmap_reconstruction_divergence :
    fsRemoved.free_block_bitmap.getD 2 false = true ∧
    (reconstructBitmap fsRemoved.Blocks fsRemoved.InodeBlocks
        fsRemoved.mounted_disk).getD 2 false = false := by
  decide

/-- Claim C4.  The claim states that after a write returning bytes_written
the stored Size equals max(old Size, offset + bytes_written).  On fs4
(valid inode 0, Size 4090), write(0, data, 2, 4090) returns 6 bytes written
(the copy loop always runs to the end of the first block), yet the stored
Size becomes offset + clamped length = 4092, not max(4090, 4090 + 6) = 4096.
The spec resolves the variants' disagreement by mandating
offset + bytes_written, so the code is the bug. -/
theorem claim4_size_after_write :
    (writeInode fs4 0 [] 2 4090).1 = some 6 ∧
    stat (writeInode fs4 0 [] 2 4090).2 0 = some 4092 ∧
    4092 ≠ max 4090 (4090 + 6) := by
  decide

/-- Claim C6.  The claim states that a write to an inumber whose record has
Valid == 0 returns -1 and changes nothing.  On the freshly formatted and
mounted fsMounted, inode 0 is invalid (all-zero record), yet
write(0, data, 1, 0) runs (the Valid check in the source is commented out),
allocates block 3 (flipping its bitmap entry), writes it, stores Size = 1
into the still-invalid record and returns 4096. -/
theorem claim6_write_invalid_inode :
    load_inode fsMounted 0 = some ⟨0, 0, [0, 0, 0, 0, 0], 0⟩ ∧
    (writeInode fsMounted 0 [] 1 0).1 = some 4096 ∧
    fsMounted.free_block_bitmap.getD 3 false = true ∧
    (writeInode fsMounted 0 [] 1 0).2.free_block_bitmap.getD 3 false = false := by
  decide

/-- Claim C7.  The claim states that a read from an inumber whose record has
Valid == 0 returns -1.  readInode has no Valid check: on fsMounted, inode 1
is invalid (all-zero record, hence Size 0), and read(1, data, 5, 0) clamps
the length to 0 and returns 0, not -1. -/
theorem claim7_read_invalid_inode :
    load_inode fsMounted 1 = some ⟨0, 0, [0, 0, 0, 0, 0], 0⟩ ∧
    readInode fsMounted 1 5 0 = some (0, []) := by
  decide

/-- Claim C8.  The claim states that mount succeeds only if, among other
checks, the superblock's Blocks field equals disk.size().  The source never
compares the two (its third check, Blocks < 0, is vacuous on an unsigned
field): mounting a 30-block disk whose superblock says Blocks = 20 succeeds. -/
theorem claim8_mount_missing_size_check :
    (mount disk30).isSome = true ∧
    disk30.blocks.length = 30 ∧
    getWord (readDisk disk30 0) 1 = 20 ∧
    (20 : Nat) ≠ 30 := by
  decide

/-- Claim C5 counterexample.  The claim states that the write length is
clamped so that offset + length never exceeds
(POINTERS_PER_INODE + POINTERS_PER_BLOCK) * BLOCK_SIZE = 4214784 and that at
most that many bytes past offset are ever written.  On the 20000-block
fsBig the clamp bound of the source is (Blocks - InodeBlocks - 1) *
BLOCK_SIZE = 73723904, so a write of 100 bytes at offset 4214780 is not
clamped at all (effective length stays 100, offset + 100 > 4214784), the
call reports 4096 bytes written past that offset, and the stored Size grows
to 4214880, past the claimed maximum. -/
theorem claim5_clamp_counterexample :
    writeEffLength ((fsBig.Blocks - fsBig.InodeBlocks - 1) * BLOCK_SIZE)
        4214780 100 = 100 ∧
    4214780 + 100 > (POINTERS_PER_INODE + POINTERS_PER_BLOCK) * BLOCK_SIZE ∧
    (writeInode fsBig 0 [] 100 4214780).1 = some 4096 ∧
    4214780 + 4096 > (POINTERS_PER_INODE + POINTERS_PER_BLOCK) * BLOCK_SIZE ∧
    stat (writeInode fsBig 0 [] 100 4214780).2 0 = some 4214880 := by
  decide

/-- Claim C5 (amended).  writeInode clamps the effective length against
(Blocks - InodeBlocks - 1) * BLOCK_SIZE, the data-region capacity of the
mounted geometry, not against the maximum file size: whenever offset is
within that bound (and the bound is a representable size_t), offset plus the
clamped length does not exceed it. -/
theorem claim5_clamp_amended (fs : FS) (offset length : Nat)
    (h1 : offset ≤ (fs.Blocks - fs.InodeBlocks - 1) * BLOCK_SIZE)
    (h2 : (fs.Blocks - fs.InodeBlocks - 1) * BLOCK_SIZE < SIZE_T_MOD) :
    offset + writeEffLength ((fs.Blocks - fs.InodeBlocks - 1) * BLOCK_SIZE)
        offset length ≤ (fs.Blocks - fs.InodeBlocks - 1) * BLOCK_SIZE := by
  set m := (fs.Blocks - fs.InodeBlocks - 1) * BLOCK_SIZE with hm
  unfold writeEffLength
  split_ifs with h
  · have he : m + SIZE_T_MOD - offset = SIZE_T_MOD + (m - offset) := by omega
    have hlt : m - offset < SIZE_T_MOD := by omega
    rw [he, Nat.add_mod_left, Nat.mod_eq_of_lt hlt]
    omega
  · omega

/-- Witness for the amended claim C5 at the canonical 20-block geometry:
a write of 100000 bytes at offset 0 is clamped to the data-region capacity
17 * 4096 = 69632. -/
theorem claim5_clamp_amended_witness :
    0 + writeEffLength ((fsMounted.Blocks - fsMounted.InodeBlocks - 1) * BLOCK_SIZE)
        0 100000 ≤ (fsMounted.Blocks - fsMounted.InodeBlocks - 1) * BLOCK_SIZE :=
  claim5_clamp_amended fsMounted 0 100000 (by decide) (by decide)

/-- Claim C9.  For every state: when allocate_free_block returns a block b,
b is the lowest index whose bitmap entry is true, the resulting state is the
old one with that entry flipped to false and block b zeroed on disk; when it
returns -1 (none), the state is unchanged and no entry below Blocks is true. -/
theorem claim9_allocate_spec (fs : FS) :
    (∀ b fs2, allocate_free_block fs = (some b, fs2) →
        fs.free_block_bitmap.getD b false = true ∧
        (∀ j, j < b → fs.free_block_bitmap.getD j false = false) ∧
        fs2 = { fs with free_block_bitmap := fs.free_block_bitmap.set b false
                        mounted_disk := writeDisk fs.mounted_disk b zeroBlock }) ∧
    (∀ fs2, allocate_free_block fs = (none, fs2) →
        fs2 = fs ∧ ∀ j, j < fs.Blocks → fs.free_block_bitmap.getD j false = false) := by
  constructor
  · intro b fs2 h
    unfold allocate_free_block at h
    cases hs : scanFree fs.free_block_bitmap fs.Blocks 0 with
    | none => rw [hs] at h; simp at h
    | some b2 =>
      rw [hs] at h
      simp only [Prod.mk.injEq, Option.some.injEq] at h
      obtain ⟨rfl, rfl⟩ := h
      obtain ⟨g1, _, g3⟩ := scanFree_some fs.free_block_bitmap fs.Blocks 0 b2 hs
      exact ⟨g1, fun j hj => g3 j (Nat.zero_le j) hj, rfl⟩
  · intro fs2 h
    unfold allocate_free_block at h
    cases hs : scanFree fs.free_block_bitmap fs.Blocks 0 with
    | none =>
      rw [hs] at h
      simp only [Prod.mk.injEq] at h
      refine ⟨h.2.symm, fun j hj => ?_⟩
      have := scanFree_none fs.free_block_bitmap fs.Blocks 0 hs j (Nat.zero_le j)
      exact this (by omega)
    | some b2 => rw [hs] at h; simp at h

/-- Witness for claim C9 on a concrete 3-block state whose lowest free block
is 2: the hit case of the specification, instantiated and discharged by
evaluation. -/
theorem claim9_allocate_spec_witness :
    fsAllocW.free_block_bitmap.getD 2 false = true ∧
    (∀ j, j < 2 → fsAllocW.free_block_bitmap.getD j false = false) ∧
    (allocate_free_block fsAllocW).2 =
      { fsAllocW with free_block_bitmap := fsAllocW.free_block_bitmap.set 2 false
                      mounted_disk := writeDisk fsAllocW.mounted_disk 2 zeroBlock } :=
  (claim9_allocate_spec fsAllocW).1 2 (allocate_free_block fsAllocW).2 (by decide)

/-- Claim C10.  For every inumber n below Inodes and every inode record r,
save_inode succeeds and changes exactly record slot n % INODES_PER_BLOCK of
block n / INODES_PER_BLOCK + 1 to r: the rest of the state (bitmap, metadata,
mount counter), every other disk block, and every other record of the
modified block are unchanged. -/
theorem claim10_save_inode_frame (fs : FS) (n : Nat) (r : Inode)
    (h1 : n < fs.Inodes)
    (h2 : n / INODES_PER_BLOCK + 1 < fs.mounted_disk.blocks.length)
    (h3 : 8 * (n % INODES_PER_BLOCK) + 7 <
            (readDisk fs.mounted_disk (n / INODES_PER_BLOCK + 1)).length)
    (h4 : r.Direct.length = POINTERS_PER_INODE) :
    (save_inode fs n r).1 = true ∧
    (save_inode fs n r).2.free_block_bitmap = fs.free_block_bitmap ∧
    (save_inode fs n r).2.Blocks = fs.Blocks ∧
    (save_inode fs n r).2.InodeBlocks = fs.InodeBlocks ∧
    (save_inode fs n r).2.Inodes = fs.Inodes ∧
    (save_inode fs n r).2.mounted_disk.mounts = fs.mounted_disk.mounts ∧
    (∀ b, b ≠ n / INODES_PER_BLOCK + 1 →
        readDisk (save_inode fs n r).2.mounted_disk b = readDisk fs.mounted_disk b) ∧
    (∀ j, j ≠ n % INODES_PER_BLOCK →
        decodeInode (readDisk (save_inode fs n r).2.mounted_disk
            (n / INODES_PER_BLOCK + 1)) j =
        decodeInode (readDisk fs.mounted_disk (n / INODES_PER_BLOCK + 1)) j) ∧
    decodeInode (readDisk (save_inode fs n r).2.mounted_disk
        (n / INODES_PER_BLOCK + 1)) (n % INODES_PER_BLOCK) = r := by
  have hn : ¬ n ≥ fs.Inodes := by omega
  have hsave : save_inode fs n r =
      (true, { fs with mounted_disk :=
                 (writeDisk fs.mounted_disk (n / INODES_PER_BLOCK + 1)
                   (encodeInodeAt (readDisk fs.mounted_disk (n / INODES_PER_BLOCK + 1))
                     (n % INODES_PER_BLOCK) r)) }) := by
    simp only [save_inode, if_neg hn]
  rw [hsave]
  refine ⟨rfl, rfl, rfl, rfl, rfl, rfl, ?_, ?_, ?_⟩
  · intro b hb
    exact readDisk_writeDisk_other _ _ _ _ hb
  · intro j hj
    rw [readDisk_writeDisk_self _ _ _ h2]
    exact decode_encode_other _ _ _ _ hj
  · rw [readDisk_writeDisk_self _ _ _ h2]
    exact decode_encode_self _ _ _ h3 h4

/-- Witness for claim C10 on the mounted 20-block state: storing a concrete
record at inumber 130 (block 2, slot 2), with the hypotheses discharged by
evaluation. -/
theorem claim10_save_inode_frame_witness :
    (save_inode fsMounted 130 inodeW).1 = true ∧
    (save_inode fsMounted 130 inodeW).2.free_block_bitmap = fsMounted.free_block_bitmap ∧
    (save_inode fsMounted 130 inodeW).2.Blocks = fsMounted.Blocks ∧
    (save_inode fsMounted 130 inodeW).2.InodeBlocks = fsMounted.InodeBlocks ∧
    (save_inode fsMounted 130 inodeW).2.Inodes = fsMounted.Inodes ∧
    (save_inode fsMounted 130 inodeW).2.mounted_disk.mounts = fsMounted.mounted_disk.mounts ∧
    (∀ b, b ≠ 130 / INODES_PER_BLOCK + 1 →
        readDisk (save_inode fsMounted 130 inodeW).2.mounted_disk b =
        readDisk fsMounted.mounted_disk b) ∧
    (∀ j, j ≠ 130 % INODES_PER_BLOCK →
        decodeInode (readDisk (save_inode fsMounted 130 inodeW).2.mounted_disk
            (130 / INODES_PER_BLOCK + 1)) j =
        decodeInode (readDisk fsMounted.mounted_disk (130 / INODES_PER_BLOCK + 1)) j) ∧
    decodeInode (readDisk (save_inode fsMounted 130 inodeW).2.mounted_disk
        (130 / INODES_PER_BLOCK + 1)) (130 % INODES_PER_BLOCK) = inodeW :=
  claim10_save_inode_frame fsMounted 130 inodeW (by decide) (by decide) (by decide)
    (by decide)

end SFS
